import Mathlib

/-!
Verification development for the Election Dataset Engine
(`Backend/data_processor.py`): a shallow embedding of the data model and of
the query operations, together with theorems settling the specification's
claims about them.

Modelling conventions:
  * A pandas cell read from CSV is `Option String`: `none` is pandas `NaN`
    (produced by `read_csv` for empty / `NA`-style cells), `some s` is a
    present text cell.  Percentages and vote counts are stored as text in the
    source data, matching §3 of the spec.
  * Python/pandas floats are modelled as rationals `ℚ`; the IEEE `NaN`
    produced by `Series.mean()` over zero values and the Python value `None`
    are modelled by dedicated constructors of `PyVal`.
  * `float(...)` / `pd.to_numeric` string parsing is modelled for the plain
    decimal fragment (optional sign, digits, optional fractional part) that
    the repository's percentage/count cells use.
  * The `Party` column is indexed unconditionally by the source
    (`df['Party']`), and §3 of the spec lists the winning party name as a
    required field, so tables always carry a `party` cell per row; columns
    that the source guards with `in df.columns` or with `try`/`except`
    (`PC Name`, `State`, `Winning Candidate`, `Turnout`, `Margin %`, `Votes`,
    `Electors`) get explicit presence flags.
-/

set_option maxHeartbeats 1000000
set_option maxRecDepth 40000
set_option allowUnsafeReducibility true

/- The rational operations are `@[irreducible]` by default, which blocks
`decide`-style evaluation of the embedding on concrete inputs; proofs here
only ever evaluate them on small concrete rationals. -/
attribute [local semireducible] Rat.add Rat.mul Rat.inv Rat.sub

namespace ElectionExplorer

/-- Result of a pandas numeric computation as observed from Python: the
Python value `None` (the `except` branches replace a failed mean by `None`),
the float `NaN` (`Series.mean()` over zero non-missing values), or an actual
number. -/
inductive PyVal where
  | pyNone : PyVal
  | pyNaN : PyVal
  | pyNum (q : ℚ) : PyVal
  deriving DecidableEq, Repr

/-- `str.rstrip('%')`: remove every trailing `'%'` character. -/
def rstripPercent (s : String) : String :=
  ⟨(s.toList.reverse.dropWhile (· = '%')).reverse⟩

/-- Stable insertion: place `x` before the first element `y` with `le x y`.
Because each element is inserted into the sorted tail it originally
preceded, ties keep their original order, matching Python's stable
`sorted`. -/
def insertBy (le : α → α → Bool) (x : α) : List α → List α
  | [] => [x]
  | y :: t => if le x y then x :: y :: t else y :: insertBy le x t

/-- Stable sort by `le` (Python `sorted` / `list.sort`). -/
def sortBy (le : α → α → Bool) (l : List α) : List α :=
  l.foldr (insertBy le) []

/-- Lexicographic code-point comparison of character lists: Python's string
`<=`. -/
def lexLe : List Char → List Char → Bool
  | [], _ => true
  | _ :: _, [] => false
  | a :: as, b :: bs =>
      if a.toNat < b.toNat then true
      else if b.toNat < a.toNat then false
      else lexLe as bs

def strLe (a b : String) : Bool :=
  lexLe a.toList b.toList

/-- Whitespace stripped by Python number conversions. -/
def isPySpace (c : Char) : Bool :=
  c = ' ' || c = '\t' || c = '\n' || c = '\r'

/-- `str.strip()` on a character list. -/
def pyStrip (cs : List Char) : List Char :=
  ((cs.dropWhile isPySpace).reverse.dropWhile isPySpace).reverse

/-- Value of a list of decimal digit characters. -/
def digitsToNat (cs : List Char) : ℕ :=
  cs.foldl (fun acc c => acc * 10 + (c.toNat - 48)) 0

/-- Unsigned decimal-number parser: digits with an optional fractional part
(`"12"`, `"12."`, `".5"`, `"12.5"`); anything else fails. -/
def parseUnsignedFloat (cs : List Char) : Option ℚ :=
  let intPart := cs.takeWhile Char.isDigit
  let rest := cs.dropWhile Char.isDigit
  match rest with
  | [] => if intPart.isEmpty then none else some (digitsToNat intPart : ℚ)
  | '.' :: frac =>
      if frac.all Char.isDigit && !(intPart.isEmpty && frac.isEmpty) then
        some ((digitsToNat intPart : ℚ) + (digitsToNat frac : ℚ) / (10 : ℚ) ^ frac.length)
      else none
  | _ => none

/-- Python `float(s)` on the decimal fragment: optional surrounding
whitespace, optional sign, decimal number. -/
def parseFloat (s : String) : Option ℚ :=
  match pyStrip s.toList with
  | '-' :: rest => (parseUnsignedFloat rest).map (fun q => -q)
  | '+' :: rest => parseUnsignedFloat rest
  | rest => parseUnsignedFloat rest

/-- `.str.rstrip('%')` followed by `float` conversion of one present cell. -/
def parsePercentCell (s : String) : Option ℚ :=
  parseFloat (rstripPercent s)

/-- `series.str.rstrip('%').astype(float)` over a column: missing cells pass
through as missing, but the conversion raises — modelled as `none` — as soon
as any present cell fails to parse. -/
def astypeFloatPercent (cells : List (Option String)) : Option (List (Option ℚ)) :=
  if cells.all (fun c => match c with
      | none => true
      | some s => (parsePercentCell s).isSome) then
    some (cells.map (fun c => c.bind parsePercentCell))
  else none

/-- `pd.to_numeric(series.str.rstrip('%'), errors='coerce')`: per-cell
coercion, failures become missing instead of raising. -/
def toNumericCoerce (cells : List (Option String)) : List (Option ℚ) :=
  cells.map (fun c => c.bind parsePercentCell)

/-- `Series.mean()`: mean of the non-missing entries, `NaN` when none. -/
def seriesMean (xs : List (Option ℚ)) : PyVal :=
  if (xs.filterMap id).isEmpty then .pyNaN
  else .pyNum ((xs.filterMap id).sum / ((xs.filterMap id).length : ℚ))

/-- One constituency-result row (§3): every cell is text-or-missing. -/
structure Row where
  pcName : Option String := none
  state : Option String := none
  cand : Option String := none
  party : Option String := none
  marginPct : Option String := none
  turnout : Option String := none
  votes : Option String := none
  electors : Option String := none
  deriving DecidableEq, Repr

/-- One Year Table: its rows plus presence flags for the columns the source
accesses guardedly.  The `Party` column is always present (see header). -/
structure Table where
  rows : List Row
  hasPCName : Bool := true
  hasState : Bool := true
  hasCand : Bool := true
  hasTurnout : Bool := true
  hasMarginPct : Bool := true
  hasVotes : Bool := true
  hasElectors : Bool := true
  deriving DecidableEq, Repr

/-- The process-wide dataset: `data_by_year` as an association list in dict
insertion order. -/
abbrev Dataset := List (String × Table)

def dsFind (ds : Dataset) (year : String) : Option Table :=
  (ds.find? (fun p => p.1 == year)).map (·.2)

def emptyTable : Table :=
  { rows := [], hasPCName := false, hasState := false, hasCand := false,
    hasTurnout := false, hasMarginPct := false, hasVotes := false,
    hasElectors := false }

/-- Table lookup inside a `for year in self.years` loop.  In the source the
lookup is total because `self.years` enumerates exactly the dict keys; the
default is unreachable there. -/
def getTable (ds : Dataset) (year : String) : Table :=
  (dsFind ds year).getD emptyTable

/-- `self.years`: the year labels, sorted (`self.years.sort()`). -/
def yearsOf (ds : Dataset) : List String :=
  sortBy strLe (ds.map (·.1))

/-- Python set / dict first-occurrence accumulation. -/
def insertNew (acc : List String) (x : String) : List String :=
  if x ∈ acc then acc else acc ++ [x]

def firstDedup (xs : List String) : List String :=
  xs.foldl insertNew []

/-- `sorted(list(s))` for a Python set accumulated from `xs`. -/
def pySortedSet (xs : List String) : List String :=
  sortBy strLe (firstDedup xs)

/-- `Series.value_counts().to_dict()`: distinct non-missing values with their
multiplicities, in descending-count order (stable). -/
def valueCounts (cells : List (Option String)) : List (String × ℕ) :=
  let vals := cells.filterMap id
  sortBy (fun a b => decide (b.2 ≤ a.2))
    ((firstDedup vals).map (fun v => (v, vals.count v)))

/-- `row.get(col, '')`: the cell when the column exists, `''` otherwise. -/
def rowGet (has : Bool) (cell : Option String) : Option String :=
  if has then cell else some ""

def stripCommas (s : String) : String :=
  ⟨s.toList.filter (· ≠ ',')⟩

def digitsOnly (cs : List Char) : Option ℕ :=
  if cs.isEmpty || !cs.all Char.isDigit then none else some (digitsToNat cs)

/-- Python `int(s)` on the decimal fragment. -/
def parsePyInt (s : String) : Option ℤ :=
  match pyStrip s.toList with
  | '-' :: rest => (digitsOnly rest).map (fun n => -(n : ℤ))
  | '+' :: rest => (digitsOnly rest).map (fun n => (n : ℤ))
  | rest => (digitsOnly rest).map (fun n => (n : ℤ))

/-- Python `str(cell)`: a missing cell prints as `'nan'` (which then fails
`int()`), a present cell is itself. -/
def cellStr (c : Option String) : String :=
  c.getD "nan"

/-- Per-row summary emitted by `get_election_data`; `votesElectors` is
populated only when both columns exist and both cells parse as comma-grouped
integers (the two conversions run before either assignment, so it is
both-or-neither). -/
structure ConstituencyEntry where
  constituency : Option String
  state : Option String
  winner : Option String
  party : Option String
  marginPercent : Option String
  votesElectors : Option (ℤ × ℤ)
  deriving DecidableEq, Repr

def constituencyEntryOf (t : Table) (r : Row) : ConstituencyEntry :=
  { constituency := rowGet t.hasPCName r.pcName
    state := rowGet t.hasState r.state
    winner := rowGet t.hasCand r.cand
    party := r.party
    marginPercent := rowGet t.hasMarginPct r.marginPct
    votesElectors :=
      if t.hasVotes && t.hasElectors then
        match parsePyInt (stripCommas (cellStr r.votes)),
              parsePyInt (stripCommas (cellStr r.electors)) with
        | some v, some e => some (v, e)
        | _, _ => none
      else none }

/-- The `try: avg_turnout = df['Turnout'].str.rstrip('%').astype(float).mean()
except: avg_turnout = None` block of `get_election_data`: a missing column or
any present-but-unparseable cell raises, yielding `None`. -/
def electionAvgTurnout (t : Table) : PyVal :=
  if t.hasTurnout then
    match astypeFloatPercent (t.rows.map (·.turnout)) with
    | some parsed => seriesMean parsed
    | none => .pyNone
  else .pyNone

structure ElectionOut where
  year : String
  partySeats : List (String × ℕ)
  constituencies : List ConstituencyEntry
  avgTurnout : PyVal
  deriving DecidableEq, Repr

inductive ElectionResult where
  | error (msg : String)
  | ok (d : ElectionOut)
  deriving DecidableEq, Repr

/-- `get_election_data(year)`. -/
def getElectionData (ds : Dataset) (year : String) : ElectionResult :=
  match dsFind ds year with
  | none => .error ("No data available for year " ++ year)
  | some t => .ok
      { year := year
        partySeats := valueCounts (t.rows.map (·.party))
        constituencies := t.rows.map (constituencyEntryOf t)
        avgTurnout := electionAvgTurnout t }

/-! ### `_process_data` and `get_states` -/

/-- `Series.unique()` restricted to present values, in first-occurrence
order (both of the scans below feed the values into a Python set, so only
which values occur matters downstream). -/
def uniqueVals (cells : List (Option String)) : List String :=
  firstDedup (cells.filterMap id)

/-- `_process_data`: the single pass over `data_by_year.items()` that
accumulates the constituency / party / state sets, followed by
`sorted(list(...))` on each. -/
def processIndexes (ds : Dataset) : List String × List String × List String :=
  let acc := ds.foldl
    (fun acc p =>
      let cs := if p.2.hasPCName then acc.1 ++ uniqueVals (p.2.rows.map (·.pcName)) else acc.1
      let ps := acc.2.1 ++ uniqueVals (p.2.rows.map (·.party))
      let ss := if p.2.hasState then acc.2.2 ++ uniqueVals (p.2.rows.map (·.state)) else acc.2.2
      (cs, ps, ss))
    ([], [], [])
  (pySortedSet acc.1, pySortedSet acc.2.1, pySortedSet acc.2.2)

/-- `self.constituencies` after `_process_data`. -/
def constituenciesOf (ds : Dataset) : List String :=
  (processIndexes ds).1

/-- `self.states` after `_process_data`. -/
def statesIndexOf (ds : Dataset) : List String :=
  (processIndexes ds).2.2

/-- `get_states()`: re-scans every loaded table, re-accumulating the state
set, and returns `sorted(list(states))`. -/
def getStates (ds : Dataset) : List String :=
  pySortedSet (ds.foldl
    (fun acc p => if p.2.hasState then acc ++ uniqueVals (p.2.rows.map (·.state)) else acc)
    [])

/-! ### `get_party_data` -/

structure PartyConstit where
  name : Option String
  winner : Option String
  marginPercent : Option String
  deriving DecidableEq, Repr

structure PartyPerf where
  year : String
  seatsWon : ℕ
  totalSeats : ℕ
  percentage : ℚ
  constituencies : List PartyConstit
  deriving DecidableEq, Repr

/-- Python `round(x, 2)` on the rational model: half-to-even at 2 decimal
places. -/
def roundHalfEven (q : ℚ) : ℤ :=
  let f := ⌊q⌋
  if q - f < 1/2 then f
  else if q - f > 1/2 then f + 1
  else if f % 2 = 0 then f else f + 1

def pyRound2 (q : ℚ) : ℚ :=
  (roundHalfEven (q * 100) : ℚ) / 100

/-- One iteration of the `for year in self.years` loop of `get_party_data`:
the `if not party_rows.empty` branch computes seats, percentage and the
constituency list; the `else` branch emits the zero entry. -/
def partyPerfFor (t : Table) (year name : String) : PartyPerf :=
  let partyRows := t.rows.filter (fun r => r.party == some name)
  if !partyRows.isEmpty then
    { year := year
      seatsWon := partyRows.length
      totalSeats := t.rows.length
      percentage := pyRound2 ((partyRows.length : ℚ) / (t.rows.length : ℚ) * 100)
      constituencies := partyRows.map (fun r =>
        { name := rowGet t.hasPCName r.pcName
          winner := rowGet t.hasCand r.cand
          marginPercent := rowGet t.hasMarginPct r.marginPct }) }
  else
    { year := year, seatsWon := 0, totalSeats := t.rows.length,
      percentage := 0, constituencies := [] }

structure PartyData where
  name : String
  performance : List PartyPerf
  deriving DecidableEq, Repr

/-- `get_party_data(name)`. -/
def getPartyData (ds : Dataset) (name : String) : PartyData :=
  { name := name
    performance := (yearsOf ds).foldl
      (fun acc year => acc ++ [partyPerfFor (getTable ds year) year name]) [] }

/-! ### `compare_years` -/

/-- `len(df[df['Party'] == party])`: seats won by `party` in `t`. -/
def seatCount (t : Table) (party : String) : ℕ :=
  (t.rows.filter (fun r => r.party == some party)).length

/-- `df['Party'].value_counts().head(10).index.tolist()`. -/
def topTenParties (t : Table) : List String :=
  ((valueCounts (t.rows.map (·.party))).take 10).map (·.1)

structure YearSeats where
  year : String
  seats : ℕ
  deriving DecidableEq, Repr

inductive CompareYearsResult where
  | error (msg : String)
  | ok (years : List String) (partyPerformance : List (String × List YearSeats))
      (turnoutComparison : List (String × PyVal))
  deriving DecidableEq, Repr

/-- The year-level `try: ... mean() except: None` used by `compare_years`
for its turnout comparison. -/
def compareAvgTurnout (t : Table) : PyVal :=
  electionAvgTurnout t

/-- `compare_years(years)`. -/
def compareYears (ds : Dataset) (years : List String) : CompareYearsResult :=
  if !(years.all (fun y => (yearsOf ds).contains y)) then
    .error "One or more specified years not found in data"
  else
    let topParties := years.foldl
      (fun acc y => (topTenParties (getTable ds y)).foldl insertNew acc) []
    .ok years
      (topParties.map (fun p =>
        (p, years.map (fun y => ⟨y, seatCount (getTable ds y) p⟩))))
      (years.map (fun y => (y, compareAvgTurnout (getTable ds y))))

/-! ### `get_turnout_data` -/

structure TurnoutData where
  years : List String
  avgTurnout : List PyVal
  stateTurnout : List (String × List PyVal)
  deriving DecidableEq, Repr

/-- Association-list lookup mirroring a Python dict read. -/
def alistGet {α : Type} (m : List (String × α)) (k : String) : Option α :=
  (m.find? (fun p => p.1 == k)).map (·.2)

/-- Association-list overwrite mirroring a Python dict write. -/
def alistSet {α : Type} (m : List (String × α)) (k : String) (v : α) :
    List (String × α) :=
  if (m.find? (fun p => p.1 == k)).isSome then
    m.map (fun p => if p.1 == k then (k, v) else p)
  else m ++ [(k, v)]

/-- `while len(lst) <= idx: lst.append(d)` followed by `lst[idx] = v`. -/
def padSet {α : Type} (d : α) (lst : List α) (idx : ℕ) (v : α) : List α :=
  (lst ++ List.replicate (idx + 1 - lst.length) d).set idx v

/-- The distinct present states of a table, in sorted order — the group keys
of `df.groupby('State')` (pandas sorts group keys). -/
def stateGroups (t : Table) : List String :=
  pySortedSet (t.rows.filterMap (·.state))

/-- The group of `state` inside `t`. -/
def stateRows (t : Table) (state : String) : List Row :=
  t.rows.filter (fun r => r.state == some state)

/-- `x.str.rstrip('%').astype(float).mean()` for one state group.  When the
whole column already converted successfully this never raises, so the mean
is taken directly over the group's parsed present cells. -/
def stateGroupMean (t : Table) (state : String) : PyVal :=
  seriesMean ((stateRows t state).map (fun r => r.turnout.bind parsePercentCell))

/-- One iteration of the `for year in self.years` loop of
`get_turnout_data`.  A missing `Turnout` column or a present-but-unparseable
cell raises before anything is appended, skipping the year entirely;
otherwise the year and its mean are appended and, when a `State` column
exists, every state group's mean is written at this year's index after
`None`-padding. -/
def turnoutStep (ds : Dataset) (acc : TurnoutData) (year : String) : TurnoutData :=
  let t := getTable ds year
  if t.hasTurnout then
    match astypeFloatPercent (t.rows.map (·.turnout)) with
    | none => acc
    | some parsed =>
      let years := acc.years ++ [year]
      let avgs := acc.avgTurnout ++ [seriesMean parsed]
      let st :=
        if t.hasState then
          (stateGroups t).foldl (fun st s =>
            let cur := (alistGet st s).getD []
            let idx := years.indexOf year
            alistSet st s (padSet PyVal.pyNone cur idx (stateGroupMean t s))) acc.stateTurnout
        else acc.stateTurnout
      { years := years, avgTurnout := avgs, stateTurnout := st }
  else acc

/-- `get_turnout_data()`. -/
def getTurnoutData (ds : Dataset) : TurnoutData :=
  (yearsOf ds).foldl (turnoutStep ds) { years := [], avgTurnout := [], stateTurnout := [] }

/-! ### `get_win_margin_data` -/

structure WinMarginData where
  years : List String
  avgMargin : List PyVal
  closeContests : List ℕ
  landslideWins : List ℕ
  deriving DecidableEq, Repr

/-- One iteration of the `for year in self.years` loop of
`get_win_margin_data`: a year contributes nothing when its table lacks the
`Margin %` column; otherwise the coerced column feeds the mean and the two
threshold counts (a missing/unparseable cell satisfies neither `< 1` nor
`> 20`). -/
def winMarginStep (ds : Dataset) (acc : WinMarginData) (year : String) : WinMarginData :=
  let t := getTable ds year
  if t.hasMarginPct then
    let col := toNumericCoerce (t.rows.map (·.marginPct))
    { years := acc.years ++ [year]
      avgMargin := acc.avgMargin ++ [seriesMean col]
      closeContests := acc.closeContests ++
        [(col.filter (fun c => match c with | some q => decide (q < 1) | none => false)).length]
      landslideWins := acc.landslideWins ++
        [(col.filter (fun c => match c with | some q => decide (q > 20) | none => false)).length] }
  else acc

/-- `get_win_margin_data()`. -/
def getWinMarginData (ds : Dataset) : WinMarginData :=
  (yearsOf ds).foldl (winMarginStep ds)
    { years := [], avgMargin := [], closeContests := [], landslideWins := [] }

/-! ### `search` -/

/-- ASCII lowercasing of one character (the fragment of Python `str.lower`
exercised by the data). -/
def lowerChar (c : Char) : Char :=
  if 65 ≤ c.toNat ∧ c.toNat ≤ 90 then Char.ofNat (c.toNat + 32) else c

/-- ASCII uppercasing of one character. -/
def upperChar (c : Char) : Char :=
  if 97 ≤ c.toNat ∧ c.toNat ≤ 122 then Char.ofNat (c.toNat - 32) else c

def strLower (s : String) : String :=
  ⟨s.toList.map lowerChar⟩

def strUpper (s : String) : String :=
  ⟨s.toList.map upperChar⟩

/-- Contiguous-substring test (`needle in hay` for Python strings;
`str.contains` is modelled for literal, metacharacter-free queries). -/
def containsSub (hay needle : List Char) : Bool :=
  match hay with
  | [] => needle.isEmpty
  | _ :: t => needle.isPrefixOf hay || containsSub t needle

def strContains (hay needle : String) : Bool :=
  containsSub hay.toList needle.toList

structure SearchOut where
  constituencies : List String
  candidates : List String
  parties : List String
  deriving DecidableEq, Repr

/-- The candidate (resp. party) names collected by the per-year scan of
`search`: rows whose lowered cell contains the lowered query contribute
their original cell text to a set, modelled in first-occurrence order. -/
def collectMatches (ds : Dataset) (useCand : Bool) (q : String) : List String :=
  ds.foldl (fun acc p =>
    let t := p.2
    if (if useCand then t.hasCand else true) then
      (t.rows.filterMap (fun r =>
        let cell := if useCand then r.cand else r.party
        match cell with
        | some s => if strContains (strLower s) q then some s else none
        | none => none)).foldl insertNew acc
    else acc) []

/-- `search(query)`. -/
def search (ds : Dataset) (query : String) : SearchOut :=
  let q := strLower query
  { constituencies :=
      ((constituenciesOf ds).filter (fun c => strContains (strLower c) q)).take 10
    candidates := (collectMatches ds true q).take 10
    parties := (collectMatches ds false q).take 10 }

/-! ### `get_state_data` -/

structure StateData where
  state : String
  years : List String
  partySeats : List (String × List ℕ)
  turnout : List PyVal
  deriving DecidableEq, Repr

/-- The `try: ... mean() except: None` turnout computation of
`get_state_data`, over the state's rows. -/
def stateRowsAvgTurnout (t : Table) (state : String) : PyVal :=
  if t.hasTurnout then
    match astypeFloatPercent ((stateRows t state).map (·.turnout)) with
    | some parsed => seriesMean parsed
    | none => .pyNone
  else .pyNone

/-- One iteration of the `for year in self.years` loop of `get_state_data`:
years where the state has no row (or the table has no `State` column)
contribute nothing; otherwise the year is appended, each party seen in the
state that year gets its seat count written at this year's index (new
parties start from a zero list sized to the years seen so far), and the
state's mean turnout is appended. -/
def stateDataStep (ds : Dataset) (state : String) (acc : StateData) (year : String) :
    StateData :=
  let t := getTable ds year
  if t.hasState then
    let rows := stateRows t state
    if !rows.isEmpty then
      let years := acc.years ++ [year]
      let seats := (valueCounts (rows.map (·.party))).foldl (fun m pc =>
        let cur := (alistGet m pc.1).getD (List.replicate years.length 0)
        let idx := years.indexOf year
        alistSet m pc.1 (padSet 0 cur idx pc.2)) acc.partySeats
      { state := acc.state, years := years, partySeats := seats,
        turnout := acc.turnout ++ [stateRowsAvgTurnout t state] }
    else acc
  else acc

/-- `get_state_data(state)`. -/
def getStateData (ds : Dataset) (state : String) : StateData :=
  (yearsOf ds).foldl (stateDataStep ds state)
    { state := state, years := [], partySeats := [], turnout := [] }

/-! ## Helper lemmas -/

theorem foldl_append_eq_map (l : List α) (f : α → β) (acc : List β) :
    l.foldl (fun a x => a ++ [f x]) acc = acc ++ l.map f := by
  induction l generalizing acc with
  | nil => simp
  | cons x xs ih => simp [ih]

theorem mem_insertNew {acc : List String} {x y : String} :
    y ∈ insertNew acc x ↔ y ∈ acc ∨ y = x := by
  unfold insertNew
  by_cases h : x ∈ acc
  · simp only [if_pos h]
    constructor
    · exact Or.inl
    · rintro (hy | rfl) <;> [exact hy; exact h]
  · simp [if_neg h]

theorem nodup_insertNew {acc : List String} (h : acc.Nodup) (x : String) :
    (insertNew acc x).Nodup := by
  unfold insertNew
  by_cases hx : x ∈ acc
  · simpa [if_pos hx]
  · rw [if_neg hx]
    simpa [List.nodup_append] using ⟨h, hx⟩

theorem mem_foldl_insertNew (xs : List String) (acc : List String) (y : String) :
    y ∈ xs.foldl insertNew acc ↔ y ∈ acc ∨ y ∈ xs := by
  induction xs generalizing acc with
  | nil => simp
  | cons x t ih =>
    simp only [List.foldl_cons, ih, mem_insertNew, List.mem_cons]
    tauto

theorem nodup_foldl_insertNew (xs : List String) (acc : List String) (h : acc.Nodup) :
    (xs.foldl insertNew acc).Nodup := by
  induction xs generalizing acc with
  | nil => simpa
  | cons x t ih => exact ih _ (nodup_insertNew h x)

theorem mem_firstDedup {xs : List String} {y : String} :
    y ∈ firstDedup xs ↔ y ∈ xs := by
  simp [firstDedup, mem_foldl_insertNew]

theorem firstDedup_nodup (xs : List String) : (firstDedup xs).Nodup :=
  nodup_foldl_insertNew xs [] List.nodup_nil

theorem length_filterMap_of_isSome {l : List α} {f : α → Option β}
    (h : ∀ x ∈ l, (f x).isSome = true) : (l.filterMap f).length = l.length := by
  induction l with
  | nil => rfl
  | cons x t ih =>
    obtain ⟨b, hb⟩ := Option.isSome_iff_exists.mp (h x (List.mem_cons_self x t))
    simp [List.filterMap_cons, hb, ih (fun z hz => h z (List.mem_cons_of_mem x hz))]

theorem sum_counts_firstDedup (vals : List String) :
    ((firstDedup vals).map (fun v => vals.count v)).sum = vals.length := by
  have h1 : (firstDedup vals).toFinset = vals.toFinset := by
    ext a; simp [mem_firstDedup]
  calc ((firstDedup vals).map (fun v => vals.count v)).sum
      = (firstDedup vals).toFinset.sum (fun v => vals.count v) :=
        (List.sum_toFinset _ (firstDedup_nodup vals)).symm
    _ = vals.toFinset.sum (fun v => vals.count v) := by rw [h1]
    _ = vals.length := List.sum_toFinset_count_eq_length vals

theorem insertBy_perm (le : α → α → Bool) (x : α) (l : List α) :
    List.Perm (insertBy le x l) (x :: l) := by
  induction l with
  | nil => rfl
  | cons y t ih =>
    unfold insertBy
    split
    · rfl
    · exact (ih.cons y).trans (List.Perm.swap x y t)

theorem sortBy_perm (le : α → α → Bool) (l : List α) : List.Perm (sortBy le l) l := by
  induction l with
  | nil => rfl
  | cons x t ih => exact (insertBy_perm le x (sortBy le t)).trans (ih.cons x)

theorem valueCounts_sum (cells : List (Option String)) :
    ((valueCounts cells).map (·.2)).sum = (cells.filterMap id).length := by
  show ((sortBy (fun a b => decide (b.2 ≤ a.2))
      ((firstDedup (cells.filterMap id)).map
        (fun v => (v, (cells.filterMap id).count v)))).map (·.2)).sum =
    (cells.filterMap id).length
  have hperm := List.Perm.sum_eq (List.Perm.map (fun p : String × ℕ => p.2)
    (sortBy_perm (fun a b : String × ℕ => decide (b.2 ≤ a.2))
      ((firstDedup (cells.filterMap id)).map
        (fun v => (v, (cells.filterMap id).count v)))))
  rw [hperm, List.map_map]
  simpa using sum_counts_firstDedup (cells.filterMap id)

theorem getPartyData_performance_eq (ds : Dataset) (p : String) :
    (getPartyData ds p).performance =
      (yearsOf ds).map (fun y => partyPerfFor (getTable ds y) y p) := by
  unfold getPartyData
  simpa using foldl_append_eq_map (yearsOf ds) (fun y => partyPerfFor (getTable ds y) y p) []

/-! ## Claim C1 -/

/-- C1, counterexample input: a year table whose turnout column holds one
parseable cell (`"50%"`) and one present-but-unparseable cell (`"abc"`). -/
def c1Table : Table :=
  { rows := [ { turnout := some "50%" }, { turnout := some "abc" } ] }

def c1Ds : Dataset := [("1962", c1Table)]

/-- Projection used to state closed facts about `get_election_data`
results. -/
def resultAvgTurnout : ElectionResult → Option PyVal
  | .error _ => none
  | .ok o => some o.avgTurnout

/-- C1 counterexample: in this table exactly one turnout cell parses (to
50), so the claim predicts a mean of 50; the code instead reports the
`None` marker for the whole year — a row that fails to parse is not merely
excluded from numerator and denominator, it poisons the entire mean. -/
theorem electionData_meanTurnout_counterexample :
    resultAvgTurnout (getElectionData c1Ds "1962") = some PyVal.pyNone ∧
    c1Table.rows.filterMap (fun r => r.turnout.bind parsePercentCell) = [(50 : ℚ)] ∧
    PyVal.pyNone ≠ PyVal.pyNum 50 := by decide

/-- C1 (amended): for a loaded year, the reported mean turnout is `None`
whenever the turnout column is absent or any present cell fails to parse as
a percentage; when every present cell parses, rows with a missing cell are
excluded from both numerator and denominator and the result is the mean of
the parsed cells — the `NaN` marker (not `None`, not zero, not an error)
when zero cells parse. -/
theorem electionData_meanTurnout_spec (ds : Dataset) (year : String) (t : Table)
    (h : dsFind ds year = some t) :
    (∃ o, getElectionData ds year = ElectionResult.ok o ∧
        o.avgTurnout = electionAvgTurnout t) ∧
    ((t.hasTurnout = false ∨
        ∃ r ∈ t.rows, ∃ s, r.turnout = some s ∧ parsePercentCell s = none) →
      electionAvgTurnout t = PyVal.pyNone) ∧
    (t.hasTurnout = true →
      (∀ r ∈ t.rows, ∀ s, r.turnout = some s → (parsePercentCell s).isSome = true) →
      electionAvgTurnout t =
        (if (t.rows.filterMap (fun r => r.turnout.bind parsePercentCell)).isEmpty
         then PyVal.pyNaN
         else PyVal.pyNum
           ((t.rows.filterMap (fun r => r.turnout.bind parsePercentCell)).sum /
            ((t.rows.filterMap (fun r => r.turnout.bind parsePercentCell)).length : ℚ)))) := by
  refine ⟨?_, ?_, ?_⟩
  · unfold getElectionData
    rw [h]
    exact ⟨_, rfl, rfl⟩
  · rintro (hn | ⟨r, hr, s, hs, hps⟩)
    · simp [electionAvgTurnout, hn]
    · unfold electionAvgTurnout
      have hfail : astypeFloatPercent (t.rows.map (·.turnout)) = none := by
        unfold astypeFloatPercent
        rw [if_neg]
        intro hall
        have := (List.all_eq_true.mp hall) (some s)
            (List.mem_map.mpr ⟨r, hr, by rw [hs]⟩)
        simp [hps] at this
      rw [hfail]
      split <;> rfl
  · intro ht hall
    have hok : astypeFloatPercent (t.rows.map (·.turnout)) =
        some ((t.rows.map (·.turnout)).map (fun c => c.bind parsePercentCell)) := by
      unfold astypeFloatPercent
      rw [if_pos]
      apply List.all_eq_true.mpr
      rintro c hc
      obtain ⟨r, hr, rfl⟩ := List.mem_map.mp hc
      cases hrt : r.turnout with
      | none => simp
      | some s => simpa using hall r hr s hrt
    rw [electionAvgTurnout, if_pos ht, hok]
    unfold seriesMean
    have hfm : ((t.rows.map (·.turnout)).map (fun c => c.bind parsePercentCell)).filterMap id =
        t.rows.filterMap (fun r => r.turnout.bind parsePercentCell) := by
      rw [List.filterMap_map, List.filterMap_map]
      rfl
    simp only [hfm]

/-- Concrete instance of the amended C1 theorem: a one-row dataset whose
single turnout cell parses. -/
def wTable : Table :=
  { rows := [ { party := some "A", turnout := some "50%",
                state := some "S", pcName := some "Alpha" } ] }

def wDs : Dataset := [("1962", wTable)]

theorem electionData_meanTurnout_spec_witness :
    electionAvgTurnout wTable =
      (if (wTable.rows.filterMap (fun r => r.turnout.bind parsePercentCell)).isEmpty
       then PyVal.pyNaN
       else PyVal.pyNum
         ((wTable.rows.filterMap (fun r => r.turnout.bind parsePercentCell)).sum /
          ((wTable.rows.filterMap (fun r => r.turnout.bind parsePercentCell)).length : ℚ))) :=
  (electionData_meanTurnout_spec wDs "1962" wTable (by decide)).2.2 (by decide)
    (by decide)

/-! ## Claim C3 -/

/-- C3: `party_data(p)` emits exactly one performance entry per loaded year
in year order; a zero-seat year still yields an entry with `seats_won = 0`,
`percentage = 0` and an empty constituency list; an `n > 0`-seat year yields
`seats_won = n`, `percentage = round(n / total_rows * 100, 2)` and a
constituency list of `n` items. -/
theorem partyData_entry_per_year (ds : Dataset) (p : String) :
    (getPartyData ds p).performance =
      (yearsOf ds).map (fun y => partyPerfFor (getTable ds y) y p) ∧
    ∀ y ∈ yearsOf ds,
      (partyPerfFor (getTable ds y) y p).year = y ∧
      (partyPerfFor (getTable ds y) y p).seatsWon = seatCount (getTable ds y) p ∧
      (partyPerfFor (getTable ds y) y p).totalSeats = (getTable ds y).rows.length ∧
      (partyPerfFor (getTable ds y) y p).constituencies.length =
        seatCount (getTable ds y) p ∧
      (seatCount (getTable ds y) p = 0 →
        (partyPerfFor (getTable ds y) y p).percentage = 0 ∧
        (partyPerfFor (getTable ds y) y p).constituencies = []) ∧
      (seatCount (getTable ds y) p ≠ 0 →
        (partyPerfFor (getTable ds y) y p).percentage =
          pyRound2 ((seatCount (getTable ds y) p : ℚ) /
            ((getTable ds y).rows.length : ℚ) * 100)) := by
  refine ⟨getPartyData_performance_eq ds p, ?_⟩
  intro y _
  set t := getTable ds y
  unfold partyPerfFor seatCount
  by_cases he : (t.rows.filter (fun r => r.party == some p)).isEmpty
  · have hlen : (t.rows.filter (fun r => r.party == some p)).length = 0 := by
      simpa [List.isEmpty_iff_length_eq_zero] using he
    simp [he, hlen]
  · have hlen : (t.rows.filter (fun r => r.party == some p)).length ≠ 0 := by
      simpa [List.isEmpty_iff_length_eq_zero] using he
    simp [he, hlen]

theorem partyData_entry_per_year_witness :
    (partyPerfFor (getTable wDs "1962") "1962" "A").year = "1962" ∧
    (partyPerfFor (getTable wDs "1962") "1962" "A").seatsWon =
      seatCount (getTable wDs "1962") "A" ∧
    (partyPerfFor (getTable wDs "1962") "1962" "A").totalSeats =
      (getTable wDs "1962").rows.length ∧
    (partyPerfFor (getTable wDs "1962") "1962" "A").constituencies.length =
      seatCount (getTable wDs "1962") "A" ∧
    (seatCount (getTable wDs "1962") "A" = 0 →
      (partyPerfFor (getTable wDs "1962") "1962" "A").percentage = 0 ∧
      (partyPerfFor (getTable wDs "1962") "1962" "A").constituencies = []) ∧
    (seatCount (getTable wDs "1962") "A" ≠ 0 →
      (partyPerfFor (getTable wDs "1962") "1962" "A").percentage =
        pyRound2 ((seatCount (getTable wDs "1962") "A" : ℚ) /
          ((getTable wDs "1962").rows.length : ℚ) * 100)) :=
  (partyData_entry_per_year wDs "A").2 "1962" (by decide)

/-! ## Claim C6 -/

/-- C6: for every loaded year, the values of `election_data(y)['party_seats']`
sum to the row count of that year's table (under §3's data-model premise
that every row carries a winning party name; `value_counts` drops missing
cells). -/
theorem electionData_partySeats_sum (ds : Dataset) (year : String) (t : Table)
    (h : dsFind ds year = some t) (hp : ∀ r ∈ t.rows, (r.party).isSome = true) :
    ∃ o, getElectionData ds year = ElectionResult.ok o ∧
      (o.partySeats.map (·.2)).sum = t.rows.length := by
  refine ⟨_, by unfold getElectionData; rw [h], ?_⟩
  show ((valueCounts (t.rows.map (·.party))).map (·.2)).sum = t.rows.length
  rw [valueCounts_sum]
  have : (t.rows.map (·.party)).filterMap id = t.rows.filterMap (·.party) := by
    simp [List.filterMap_map]
  rw [this]
  exact length_filterMap_of_isSome hp

theorem electionData_partySeats_sum_witness :
    ∃ o, getElectionData wDs "1962" = ElectionResult.ok o ∧
      (o.partySeats.map (·.2)).sum = wTable.rows.length :=
  electionData_partySeats_sum wDs "1962" wTable (by decide) (by decide)

/-! ## Claim C10 -/

/-- C10: `party_data` never divides by zero — the percentage expression is
evaluated only on the branch where the party's matching rows are non-empty,
so every emitted entry with a non-zero seat count has `total_seats ≥ 1`
(indeed `seats_won ≤ total_seats`); the empty-table case takes the
zero-seats branch, which performs no division. -/
theorem partyData_division_guarded (ds : Dataset) (p : String) :
    ∀ e ∈ (getPartyData ds p).performance, e.seatsWon ≠ 0 →
      0 < e.totalSeats ∧ e.seatsWon ≤ e.totalSeats := by
  intro e he hne
  rw [getPartyData_performance_eq] at he
  obtain ⟨y, _, rfl⟩ := List.mem_map.mp he
  set t := getTable ds y
  revert hne
  unfold partyPerfFor
  by_cases hemp : (t.rows.filter (fun r => r.party == some p)).isEmpty
  · intro hne
    simp [hemp] at hne
  · intro _
    have hlen : (t.rows.filter (fun r => r.party == some p)).length ≠ 0 := by
      simpa [List.isEmpty_iff_length_eq_zero] using hemp
    have hle : (t.rows.filter (fun r => r.party == some p)).length ≤ t.rows.length :=
      List.length_filter_le _ _
    simp only [hemp, Bool.not_false, if_true]
    exact ⟨lt_of_lt_of_le (Nat.pos_of_ne_zero hlen) hle, hle⟩

theorem partyData_division_guarded_witness :
    0 < (partyPerfFor (getTable wDs "1962") "1962" "A").totalSeats ∧
    (partyPerfFor (getTable wDs "1962") "1962" "A").seatsWon ≤
      (partyPerfFor (getTable wDs "1962") "1962" "A").totalSeats :=
  partyData_division_guarded wDs "A"
    (partyPerfFor (getTable wDs "1962") "1962" "A")
    (by rw [getPartyData_performance_eq]
        have hy : yearsOf wDs = ["1962"] := by decide
        rw [hy]
        exact List.mem_cons_self _ _)
    (by decide)

/-! ## Claim C5 -/

/-- The margin values of a year's table that parse after stripping a percent
sign: rows with a missing or unparseable cell contribute nothing. -/
def parsedMargins (t : Table) : List ℚ :=
  t.rows.filterMap (fun r => r.marginPct.bind parsePercentCell)

theorem length_filter_option (os : List (Option ℚ)) (p : ℚ → Bool) :
    (os.filter (fun c => match c with | some q => p q | none => false)).length =
    ((os.filterMap id).filter p).length := by
  induction os with
  | nil => rfl
  | cons c t ih =>
    cases c with
    | none => simpa [List.filter_cons] using ih
    | some q =>
      by_cases hq : p q = true <;> simp [List.filter_cons, hq, ih]

theorem toNumericCoerce_filterMap (t : Table) :
    (toNumericCoerce (t.rows.map (·.marginPct))).filterMap id = parsedMargins t := by
  unfold toNumericCoerce parsedMargins
  rw [List.filterMap_map, List.filterMap_map]
  rfl

/-- The value appended to each of the four series for a contributing year. -/
theorem winMargin_foldl (ds : Dataset) (l : List String) (acc : WinMarginData) :
    l.foldl (winMarginStep ds) acc =
      { years := acc.years ++ l.filter (fun y => (getTable ds y).hasMarginPct)
        avgMargin := acc.avgMargin ++
          (l.filter (fun y => (getTable ds y).hasMarginPct)).map
            (fun y => seriesMean (toNumericCoerce ((getTable ds y).rows.map (·.marginPct))))
        closeContests := acc.closeContests ++
          (l.filter (fun y => (getTable ds y).hasMarginPct)).map
            (fun y => ((toNumericCoerce ((getTable ds y).rows.map (·.marginPct))).filter
              (fun c => match c with | some q => decide (q < 1) | none => false)).length)
        landslideWins := acc.landslideWins ++
          (l.filter (fun y => (getTable ds y).hasMarginPct)).map
            (fun y => ((toNumericCoerce ((getTable ds y).rows.map (·.marginPct))).filter
              (fun c => match c with | some q => decide (q > 20) | none => false)).length) } := by
  induction l generalizing acc with
  | nil => simp
  | cons y t ih =>
    rw [List.foldl_cons, ih]
    by_cases hp : (getTable ds y).hasMarginPct
    · simp [winMarginStep, hp, List.filter_cons]
    · simp [winMarginStep, hp, List.filter_cons]

/-- C5 counterexample-style example input from the claim: margins `0.5%`,
`25%` and `NA` (the latter read as a missing cell by the CSV loader). -/
def c5Table : Table :=
  { rows := [ { party := some "A", marginPct := some "0.5%" },
              { party := some "B", marginPct := some "25%" },
              { party := some "C", marginPct := none } ] }

def c5Ds : Dataset := [("1962", c5Table)]

/-- C5: for every loaded year whose table has a margin-percent column,
`win_margin_data()` reports the mean of the rows whose margin parses after
stripping a percent sign (unparseable rows excluded from the mean), the
count of rows with parsed margin below 1 as close contests, and the count
of rows with parsed margin above 20 as landslide wins; in particular a year
with margins `0.5%`, `25%`, `NA` reports `avg_margin = 12.75`,
`close_contests = 1`, `landslide_wins = 1`. -/
theorem winMargin_spec (ds : Dataset) :
    ((getWinMarginData ds).years =
        (yearsOf ds).filter (fun y => (getTable ds y).hasMarginPct) ∧
     (getWinMarginData ds).avgMargin =
        ((yearsOf ds).filter (fun y => (getTable ds y).hasMarginPct)).map
          (fun y =>
            if (parsedMargins (getTable ds y)).isEmpty then PyVal.pyNaN
            else PyVal.pyNum ((parsedMargins (getTable ds y)).sum /
              ((parsedMargins (getTable ds y)).length : ℚ))) ∧
     (getWinMarginData ds).closeContests =
        ((yearsOf ds).filter (fun y => (getTable ds y).hasMarginPct)).map
          (fun y => ((parsedMargins (getTable ds y)).filter (fun q => decide (q < 1))).length) ∧
     (getWinMarginData ds).landslideWins =
        ((yearsOf ds).filter (fun y => (getTable ds y).hasMarginPct)).map
          (fun y => ((parsedMargins (getTable ds y)).filter (fun q => decide (q > 20))).length)) ∧
    getWinMarginData c5Ds =
      { years := ["1962"], avgMargin := [PyVal.pyNum ((51 : ℚ) / 4)],
        closeContests := [1], landslideWins := [1] } := by
  constructor
  · have h := winMargin_foldl ds (yearsOf ds)
      { years := [], avgMargin := [], closeContests := [], landslideWins := [] }
    refine ⟨?_, ?_, ?_, ?_⟩
    · rw [getWinMarginData, h]
      simp
    · rw [getWinMarginData, h]
      simp only [List.nil_append]
      apply List.map_congr_left
      intro y _
      rw [seriesMean, toNumericCoerce_filterMap]
    · rw [getWinMarginData, h]
      simp only [List.nil_append]
      apply List.map_congr_left
      intro y _
      rw [length_filter_option, toNumericCoerce_filterMap]
    · rw [getWinMarginData, h]
      simp only [List.nil_append]
      apply List.map_congr_left
      intro y _
      rw [length_filter_option, toNumericCoerce_filterMap]
  · decide

/-! ## Claim C4 -/

theorem mem_topFold (f : String → List String) (req : List String) (acc : List String)
    (p : String) :
    p ∈ req.foldl (fun acc y => (f y).foldl insertNew acc) acc ↔
      p ∈ acc ∨ ∃ y ∈ req, p ∈ f y := by
  induction req generalizing acc with
  | nil => simp
  | cons y t ih =>
    rw [List.foldl_cons, ih, mem_foldl_insertNew]
    constructor
    · rintro (⟨h | h⟩ | ⟨z, hz, hp⟩)
      · exact Or.inl h
      · exact Or.inr ⟨y, List.mem_cons_self y t, h⟩
      · exact Or.inr ⟨z, List.mem_cons_of_mem y hz, hp⟩
    · rintro (h | ⟨z, hz, hp⟩)
      · exact Or.inl (Or.inl h)
      · rcases List.mem_cons.mp hz with rfl | hz
        · exact Or.inl (Or.inr hp)
        · exact Or.inr ⟨z, hz, hp⟩

/-- C4: `compare_years` returns a structured error value whenever at least
one requested year is absent from the loaded year list; otherwise its
`party_performance` covers exactly the union of the top-10-by-seat-count
parties of each requested year, and each such party reports its seat count
in every requested year (0 where it won no seat, since `seatCount` is the
row count of its exact-match rows). -/
theorem compareYears_spec (ds : Dataset) (req : List String) :
    ((¬ ∀ y ∈ req, y ∈ yearsOf ds) →
        compareYears ds req = CompareYearsResult.error
          "One or more specified years not found in data") ∧
    ((∀ y ∈ req, y ∈ yearsOf ds) →
      ∃ perf turnout, compareYears ds req = CompareYearsResult.ok req perf turnout ∧
        (∀ p, p ∈ perf.map (·.1) ↔ ∃ y ∈ req, p ∈ topTenParties (getTable ds y)) ∧
        (∀ e ∈ perf, e.2 = req.map (fun y => ⟨y, seatCount (getTable ds y) e.1⟩))) := by
  have hall : (req.all (fun y => (yearsOf ds).contains y) = true) ↔
      ∀ y ∈ req, y ∈ yearsOf ds := by
    rw [List.all_eq_true]
    constructor
    · intro h y hy
      simpa using h y hy
    · intro h y hy
      simpa using h y hy
  constructor
  · intro hmiss
    have : req.all (fun y => (yearsOf ds).contains y) = false := by
      cases hb : req.all (fun y => (yearsOf ds).contains y)
      · rfl
      · exact absurd (hall.mp hb) hmiss
    unfold compareYears
    rw [this]
    rfl
  · intro hpres
    have hb : req.all (fun y => (yearsOf ds).contains y) = true := hall.mpr hpres
    have hcy : compareYears ds req = CompareYearsResult.ok req
        ((req.foldl (fun acc y => (topTenParties (getTable ds y)).foldl insertNew acc) []).map
          (fun p => (p, req.map (fun y => YearSeats.mk y (seatCount (getTable ds y) p)))))
        (req.map (fun y => (y, compareAvgTurnout (getTable ds y)))) := by
      unfold compareYears
      rw [hb]
      rfl
    refine ⟨_, _, hcy, ?_, ?_⟩
    · intro p
      constructor
      · intro hp
        obtain ⟨e, he, rfl⟩ := List.mem_map.mp hp
        obtain ⟨q, hq, rfl⟩ := List.mem_map.mp he
        rcases (mem_topFold (fun y => topTenParties (getTable ds y)) req [] q).mp hq with
          h | h
        · exact absurd h (List.not_mem_nil q)
        · exact h
      · intro hex
        refine List.mem_map.mpr
          ⟨(p, req.map (fun y => YearSeats.mk y (seatCount (getTable ds y) p))), ?_, rfl⟩
        exact List.mem_map.mpr
          ⟨p, (mem_topFold (fun y => topTenParties (getTable ds y)) req [] p).mpr
            (Or.inr hex), rfl⟩
    · intro e he
      obtain ⟨q, hq, rfl⟩ := List.mem_map.mp he
      rfl

theorem compareYears_spec_witness :
    compareYears wDs ["2099"] = CompareYearsResult.error
      "One or more specified years not found in data" :=
  (compareYears_spec wDs ["2099"]).1 (by decide)

/-! ## Claim C9 -/

theorem processIndexes_states_fold (ds : Dataset) (cs ps ss : List String) :
    (ds.foldl
      (fun acc p =>
        let cs := if p.2.hasPCName then acc.1 ++ uniqueVals (p.2.rows.map (·.pcName)) else acc.1
        let ps := acc.2.1 ++ uniqueVals (p.2.rows.map (·.party))
        let ss := if p.2.hasState then acc.2.2 ++ uniqueVals (p.2.rows.map (·.state)) else acc.2.2
        (cs, ps, ss))
      (cs, ps, ss)).2.2 =
    ds.foldl
      (fun acc p => if p.2.hasState then acc ++ uniqueVals (p.2.rows.map (·.state)) else acc)
      ss := by
  induction ds generalizing cs ps ss with
  | nil => rfl
  | cons hd tl ih =>
    rw [List.foldl_cons, List.foldl_cons]
    exact ih _ _ _

/-- C9: `get_states()` recomputes the distinct-state scan that
`_process_data` ran at startup; over the same immutable tables the two
agree, so `states()` always returns the precomputed sorted, deduplicated
state list. -/
theorem getStates_eq_precomputed (ds : Dataset) : getStates ds = statesIndexOf ds := by
  unfold getStates statesIndexOf processIndexes
  exact congrArg pySortedSet (processIndexes_states_fold ds [] [] []).symm

/-! ## Claim C7 -/

theorem toNat_ofNat_small {n : ℕ} (h : n < 55296) : (Char.ofNat n).toNat = n := by
  have hv : n.isValidChar := Or.inl h
  rw [Char.ofNat, dif_pos hv]
  simp [Char.ofNatAux, Char.toNat, UInt32.toNat, BitVec.ofNatLt]

theorem lowerChar_upperChar (c : Char) : lowerChar (upperChar c) = lowerChar c := by
  unfold lowerChar upperChar
  by_cases h : 97 ≤ c.toNat ∧ c.toNat ≤ 122
  · rw [if_pos h]
    have h1 : (Char.ofNat (c.toNat - 32)).toNat = c.toNat - 32 :=
      toNat_ofNat_small (by omega)
    rw [if_pos (by rw [h1]; omega), h1, if_neg (by omega)]
    have h2 : c.toNat - 32 + 32 = c.toNat := by omega
    rw [h2, Char.ofNat_toNat]
  · rw [if_neg h]

theorem lowerChar_idem (c : Char) : lowerChar (lowerChar c) = lowerChar c := by
  unfold lowerChar
  by_cases h : 65 ≤ c.toNat ∧ c.toNat ≤ 90
  · rw [if_pos h]
    have h1 : (Char.ofNat (c.toNat + 32)).toNat = c.toNat + 32 :=
      toNat_ofNat_small (by omega)
    rw [if_neg (by rw [h1]; omega)]
  · rw [if_neg h, if_neg h]

theorem toList_mk (l : List Char) : (String.mk l).toList = l := rfl

theorem strLower_strLower (s : String) : strLower (strLower s) = strLower s := by
  unfold strLower
  rw [toList_mk, List.map_map]
  congr 1
  apply List.map_congr_left
  intro c _
  exact lowerChar_idem c

theorem strLower_strUpper (s : String) : strLower (strUpper s) = strLower s := by
  unfold strLower strUpper
  rw [toList_mk, List.map_map]
  congr 1
  apply List.map_congr_left
  intro c _
  exact lowerChar_upperChar c

/-- C7: `search` is case-insensitive — the query is lowered before every
comparison, so any two queries with the same lowering (in particular a
query, its uppercasing and its lowercasing) produce identical results in
all three categories — and the constituency matches are exactly the first
at most 10 entries, in the dataset's sorted constituency order, of the
constituencies containing the query case-insensitively as a substring. -/
theorem search_case_insensitive (ds : Dataset) (q : String) :
    search ds q = search ds (strLower q) ∧
    search ds q = search ds (strUpper q) ∧
    (search ds q).constituencies =
      ((constituenciesOf ds).filter
        (fun c => strContains (strLower c) (strLower q))).take 10 := by
  refine ⟨?_, ?_, rfl⟩
  · unfold search
    rw [strLower_strLower]
  · unfold search
    rw [strLower_strUpper]

/-! ## Claim C2 -/

theorem padSet_length {α : Type} (d : α) (cur : List α) (idx : ℕ) (v : α) :
    (padSet d cur idx v).length = max cur.length (idx + 1) := by
  unfold padSet
  rw [List.length_set, List.length_append, List.length_replicate]
  omega

theorem padSet_ne_nil {α : Type} (d : α) (cur : List α) (idx : ℕ) (v : α) :
    padSet d cur idx v ≠ [] := by
  intro he
  have h := padSet_length d cur idx v
  rw [he] at h
  simp at h
  omega

theorem padSet_getLast_new {α : Type} (d : α) (cur : List α) (idx : ℕ) (v : α)
    (h : cur.length ≤ idx + 1) :
    (padSet d cur idx v).getLast? = some v := by
  unfold padSet
  have hL : (cur ++ List.replicate (idx + 1 - cur.length) d).length = idx + 1 := by
    rw [List.length_append, List.length_replicate]; omega
  rw [List.getLast?_eq_getElem?, List.length_set, hL]
  simp only [Nat.add_sub_cancel]
  exact List.getElem?_set_self (by rw [hL]; omega)

theorem padSet_getLast_keep {α : Type} (d : α) (cur : List α) (idx : ℕ) (v : α)
    (h : idx + 1 < cur.length) :
    (padSet d cur idx v).getLast? = cur.getLast? := by
  unfold padSet
  rw [show idx + 1 - cur.length = 0 from by omega, List.replicate_zero, List.append_nil]
  rw [List.getLast?_eq_getElem?, List.getLast?_eq_getElem?, List.length_set]
  exact List.getElem?_set_ne (by omega)

theorem mem_alistSet {α : Type} {m : List (String × α)} {k : String} {v : α}
    {e : String × α} (he : e ∈ alistSet m k v) : e ∈ m ∨ e = (k, v) := by
  unfold alistSet at he
  split at he
  · obtain ⟨p, hp, hpe⟩ := List.mem_map.mp he
    split at hpe
    · exact Or.inr hpe.symm
    · exact Or.inl (hpe ▸ hp)
  · rcases List.mem_append.mp he with h | h
    · exact Or.inl h
    · exact Or.inr (by simpa using h)

theorem alistGet_mem {α : Type} {m : List (String × α)} {k : String} {l : α}
    (h : alistGet m k = some l) : ∃ e ∈ m, e.2 = l := by
  unfold alistGet at h
  obtain ⟨p, hp, hpl⟩ := Option.map_eq_some'.mp h
  exact ⟨p, List.mem_of_find?_eq_some hp, hpl⟩

/-- The backfill discipline shared by `get_turnout_data` and
`get_state_data`: writing each group's value at index `idx` (after padding
with the filler `d`) keeps every stored series no longer than `m`, non-empty
and ending in a genuine value, provided the written values are never the
filler and fresh series start no longer than `idx + 1`. -/
theorem fold_update_inv {α β : Type} (d : α) (key : β → String) (val : β → α)
    (def0 : List α) (idx m : ℕ) (groups : List β) (st : List (String × List α))
    (hidx : idx < m) (hdef : def0.length ≤ idx + 1)
    (hval : ∀ b ∈ groups, val b ≠ d)
    (hst : ∀ e ∈ st, e.2.length ≤ m ∧ e.2 ≠ [] ∧ e.2.getLast? ≠ some d) :
    ∀ e ∈ groups.foldl
        (fun st b => alistSet st (key b)
          (padSet d ((alistGet st (key b)).getD def0) idx (val b))) st,
      e.2.length ≤ m ∧ e.2 ≠ [] ∧ e.2.getLast? ≠ some d := by
  induction groups generalizing st with
  | nil => exact hst
  | cons b t ih =>
    rw [List.foldl_cons]
    apply ih _ (fun x hx => hval x (List.mem_cons_of_mem b hx))
    intro e he
    rcases mem_alistSet he with h | rfl
    · exact hst e h
    · have hvb : val b ≠ d := hval b (List.mem_cons_self b t)
      cases hg : alistGet st (key b) with
      | none =>
        simp only [hg, Option.getD_none]
        refine ⟨?_, padSet_ne_nil d def0 idx (val b), ?_⟩
        · rw [padSet_length]; omega
        · rw [padSet_getLast_new d def0 idx (val b) hdef]
          simpa using hvb
      | some l =>
        obtain ⟨e2, he2, hl⟩ := alistGet_mem hg
        obtain ⟨hlen, hne, hlast⟩ := hst e2 he2
        subst hl
        simp only [hg, Option.getD_some]
        refine ⟨?_, padSet_ne_nil d e2.2 idx (val b), ?_⟩
        · rw [padSet_length]; omega
        · by_cases hc : e2.2.length ≤ idx + 1
          · rw [padSet_getLast_new d e2.2 idx (val b) hc]
            simpa using hvb
          · rw [padSet_getLast_keep d e2.2 idx (val b) (by omega)]
            exact hlast

theorem stateGroupMean_ne_pyNone (t : Table) (s : String) :
    stateGroupMean t s ≠ PyVal.pyNone := by
  unfold stateGroupMean seriesMean
  split <;> simp

theorem turnoutStep_eq_some (ds : Dataset) (acc : TurnoutData) (y : String)
    (parsed : List (Option ℚ))
    (ht : (getTable ds y).hasTurnout = true)
    (hat : astypeFloatPercent ((getTable ds y).rows.map (·.turnout)) = some parsed) :
    turnoutStep ds acc y =
      { years := acc.years ++ [y]
        avgTurnout := acc.avgTurnout ++ [seriesMean parsed]
        stateTurnout :=
          if (getTable ds y).hasState then
            (stateGroups (getTable ds y)).foldl (fun st s =>
              alistSet st s (padSet PyVal.pyNone ((alistGet st s).getD [])
                ((acc.years ++ [y]).indexOf y) (stateGroupMean (getTable ds y) s)))
              acc.stateTurnout
          else acc.stateTurnout } := by
  unfold turnoutStep
  rw [if_pos ht, hat]

theorem turnoutStep_eq_of_noTurnout (ds : Dataset) (acc : TurnoutData) (y : String)
    (ht : ¬ (getTable ds y).hasTurnout = true) :
    turnoutStep ds acc y = acc := by
  unfold turnoutStep
  rw [if_neg ht]

theorem turnoutStep_eq_of_fail (ds : Dataset) (acc : TurnoutData) (y : String)
    (ht : (getTable ds y).hasTurnout = true)
    (hat : astypeFloatPercent ((getTable ds y).rows.map (·.turnout)) = none) :
    turnoutStep ds acc y = acc := by
  unfold turnoutStep
  rw [if_pos ht, hat]

theorem turnoutStep_inv (ds : Dataset) (y : String) (acc : TurnoutData)
    (h1 : acc.avgTurnout.length = acc.years.length)
    (h2 : ∀ e ∈ acc.stateTurnout, e.2.length ≤ acc.years.length ∧ e.2 ≠ [] ∧
      e.2.getLast? ≠ some PyVal.pyNone) :
    (turnoutStep ds acc y).avgTurnout.length = (turnoutStep ds acc y).years.length ∧
    ∀ e ∈ (turnoutStep ds acc y).stateTurnout,
      e.2.length ≤ (turnoutStep ds acc y).years.length ∧ e.2 ≠ [] ∧
      e.2.getLast? ≠ some PyVal.pyNone := by
  by_cases ht : (getTable ds y).hasTurnout = true
  case neg =>
    rw [turnoutStep_eq_of_noTurnout ds acc y ht]
    exact ⟨h1, h2⟩
  case pos =>
    cases hat : astypeFloatPercent ((getTable ds y).rows.map (·.turnout)) with
    | none =>
      rw [turnoutStep_eq_of_fail ds acc y ht hat]
      exact ⟨h1, h2⟩
    | some parsed =>
      rw [turnoutStep_eq_some ds acc y parsed ht hat]
      constructor
      · simp [h1]
      · by_cases hs : (getTable ds y).hasState = true
        · rw [if_pos hs]
          intro e he
          have hidx : (acc.years ++ [y]).indexOf y < acc.years.length + 1 := by
            have hmem : y ∈ acc.years ++ [y] := by simp
            have := List.indexOf_lt_length.mpr hmem
            simpa using this
          have := fold_update_inv PyVal.pyNone (fun s => s)
            (fun s => stateGroupMean (getTable ds y) s) []
            ((acc.years ++ [y]).indexOf y) (acc.years.length + 1)
            (stateGroups (getTable ds y)) acc.stateTurnout hidx (by simp)
            (fun b _ => stateGroupMean_ne_pyNone (getTable ds y) b)
            (fun e2 he2 => ⟨le_trans (h2 e2 he2).1 (Nat.le_succ _),
              (h2 e2 he2).2.1, (h2 e2 he2).2.2⟩) e he
          refine ⟨?_, this.2.1, this.2.2⟩
          simpa using this.1
        · rw [if_neg hs]
          intro e he
          refine ⟨?_, (h2 e he).2.1, (h2 e he).2.2⟩
          calc e.2.length ≤ acc.years.length := (h2 e he).1
            _ ≤ (acc.years ++ [y]).length := by simp

theorem turnoutData_foldl_inv (ds : Dataset) (l : List String) (acc : TurnoutData)
    (h1 : acc.avgTurnout.length = acc.years.length)
    (h2 : ∀ e ∈ acc.stateTurnout, e.2.length ≤ acc.years.length ∧ e.2 ≠ [] ∧
      e.2.getLast? ≠ some PyVal.pyNone) :
    (l.foldl (turnoutStep ds) acc).avgTurnout.length =
      (l.foldl (turnoutStep ds) acc).years.length ∧
    ∀ e ∈ (l.foldl (turnoutStep ds) acc).stateTurnout,
      e.2.length ≤ (l.foldl (turnoutStep ds) acc).years.length ∧ e.2 ≠ [] ∧
      e.2.getLast? ≠ some PyVal.pyNone := by
  induction l generalizing acc with
  | nil => exact ⟨h1, h2⟩
  | cons y t ih =>
    rw [List.foldl_cons]
    exact ih _ (turnoutStep_inv ds y acc h1 h2).1 (turnoutStep_inv ds y acc h1 h2).2

/-- C2 (amended): `avg_turnout` always has the same length as `years`, but a
per-state series only reaches up to the last year in which that state had a
computable group mean: its length is at most the length of the years list,
it is non-empty, and its last entry is a computed value, never the `None`
backfill — trailing positions after the state's last contributing year are
simply absent instead of being backfilled with the unavailable marker. -/
theorem turnoutData_series_alignment (ds : Dataset) :
    (getTurnoutData ds).avgTurnout.length = (getTurnoutData ds).years.length ∧
    ∀ e ∈ (getTurnoutData ds).stateTurnout,
      e.2.length ≤ (getTurnoutData ds).years.length ∧ e.2 ≠ [] ∧
      e.2.getLast? ≠ some PyVal.pyNone := by
  unfold getTurnoutData
  exact turnoutData_foldl_inv ds (yearsOf ds)
    { years := [], avgTurnout := [], stateTurnout := [] } rfl
    (fun e he => absurd he (List.not_mem_nil e))

/-- C2 counterexample input: state `S` has rows only in 1962, state `T`
only in 1967; both years have parseable turnout. -/
def c2Ds : Dataset :=
  [("1962", { rows := [ { state := some "S", turnout := some "50%" } ] }),
   ("1967", { rows := [ { state := some "T", turnout := some "60%" } ] })]

/-- C2 counterexample: the years and avg_turnout series both have length 2,
and state `T` (appearing only in the later year) is correctly backfilled to
`[None, 60]` — but state `S`'s series is `[50]`, of length 1: the trailing
position for 1967 is NOT backfilled with the unavailable marker, so the
per-state series do not all have the years series' length. -/
theorem turnoutData_counterexample :
    (getTurnoutData c2Ds).years = ["1962", "1967"] ∧
    (getTurnoutData c2Ds).avgTurnout.length = 2 ∧
    alistGet (getTurnoutData c2Ds).stateTurnout "T" =
      some [PyVal.pyNone, PyVal.pyNum 60] ∧
    alistGet (getTurnoutData c2Ds).stateTurnout "S" = some [PyVal.pyNum 50] ∧
    ¬ ((alistGet (getTurnoutData c2Ds).stateTurnout "S").getD []).length =
        (getTurnoutData c2Ds).years.length := by decide

theorem turnoutData_series_alignment_witness :
    (("S", [PyVal.pyNum 50]) : String × List PyVal).2.length ≤
      (getTurnoutData c2Ds).years.length ∧
    (("S", [PyVal.pyNum 50]) : String × List PyVal).2 ≠ [] ∧
    (("S", [PyVal.pyNum 50]) : String × List PyVal).2.getLast? ≠ some PyVal.pyNone :=
  (turnoutData_series_alignment c2Ds).2 ("S", [PyVal.pyNum 50]) (by decide)

/-! ## Claim C8 -/

theorem indexOf_append_self {y : String} {l : List String} (h : y ∉ l) :
    (l ++ [y]).indexOf y = l.length := by
  rw [List.indexOf_append_of_not_mem h, List.indexOf_cons_self]
  omega

theorem valueCounts_pos (cells : List (Option String)) :
    ∀ pc ∈ valueCounts cells, pc.2 ≠ 0 := by
  intro pc hpc
  unfold valueCounts at hpc
  have hmem := (sortBy_perm _ _).mem_iff.mp hpc
  obtain ⟨v, hv, rfl⟩ := List.mem_map.mp hmem
  have hvm : v ∈ cells.filterMap id := mem_firstDedup.mp hv
  have := List.count_pos_iff.mpr hvm
  omega

theorem stateDataStep_eq_noState (ds : Dataset) (state : String) (acc : StateData)
    (y : String) (hs : ¬ (getTable ds y).hasState = true) :
    stateDataStep ds state acc y = acc := by
  unfold stateDataStep
  rw [if_neg hs]

theorem stateDataStep_eq_noRows (ds : Dataset) (state : String) (acc : StateData)
    (y : String) (hs : (getTable ds y).hasState = true)
    (hr : stateRows (getTable ds y) state = []) :
    stateDataStep ds state acc y = acc := by
  unfold stateDataStep
  rw [if_pos hs, hr]
  rfl

theorem stateDataStep_eq_rows (ds : Dataset) (state : String) (acc : StateData)
    (y : String) (hs : (getTable ds y).hasState = true)
    (hr : ¬ stateRows (getTable ds y) state = []) :
    stateDataStep ds state acc y =
      { state := acc.state
        years := acc.years ++ [y]
        partySeats :=
          (valueCounts ((stateRows (getTable ds y) state).map (·.party))).foldl
            (fun m pc => alistSet m pc.1
              (padSet 0 ((alistGet m pc.1).getD
                (List.replicate (acc.years ++ [y]).length 0))
                ((acc.years ++ [y]).indexOf y) pc.2))
            acc.partySeats
        turnout := acc.turnout ++ [stateRowsAvgTurnout (getTable ds y) state] } := by
  unfold stateDataStep
  rw [if_pos hs, if_pos (by simpa using hr)]

theorem stateDataStep_inv (ds : Dataset) (state : String) (acc : StateData)
    (y : String) (hy : y ∉ acc.years)
    (h2 : ∀ e ∈ acc.partySeats, e.2.length ≤ acc.years.length ∧ e.2 ≠ [] ∧
      e.2.getLast? ≠ some 0) :
    ((stateDataStep ds state acc y).years = acc.years ∨
      (stateDataStep ds state acc y).years = acc.years ++ [y]) ∧
    ∀ e ∈ (stateDataStep ds state acc y).partySeats,
      e.2.length ≤ (stateDataStep ds state acc y).years.length ∧ e.2 ≠ [] ∧
      e.2.getLast? ≠ some 0 := by
  by_cases hs : (getTable ds y).hasState = true
  case neg =>
    rw [stateDataStep_eq_noState ds state acc y hs]
    exact ⟨Or.inl rfl, h2⟩
  case pos =>
    by_cases hr : stateRows (getTable ds y) state = []
    · rw [stateDataStep_eq_noRows ds state acc y hs hr]
      exact ⟨Or.inl rfl, h2⟩
    · rw [stateDataStep_eq_rows ds state acc y hs hr]
      refine ⟨Or.inr rfl, ?_⟩
      intro e he
      have hidx : (acc.years ++ [y]).indexOf y = acc.years.length :=
        indexOf_append_self hy
      have := fold_update_inv 0 (fun pc : String × ℕ => pc.1)
        (fun pc : String × ℕ => pc.2)
        (List.replicate (acc.years ++ [y]).length 0)
        ((acc.years ++ [y]).indexOf y) (acc.years.length + 1)
        (valueCounts ((stateRows (getTable ds y) state).map (·.party)))
        acc.partySeats
        (by rw [hidx]; omega)
        (by simp [hidx])
        (valueCounts_pos _)
        (fun e2 he2 => ⟨le_trans (h2 e2 he2).1 (Nat.le_succ _),
          (h2 e2 he2).2.1, (h2 e2 he2).2.2⟩) e he
      refine ⟨?_, this.2.1, this.2.2⟩
      simpa using this.1

theorem stateData_foldl_inv (ds : Dataset) (state : String) (l : List String)
    (acc : StateData) (hl : l.Nodup) (hdisj : ∀ z ∈ l, z ∉ acc.years)
    (h2 : ∀ e ∈ acc.partySeats, e.2.length ≤ acc.years.length ∧ e.2 ≠ [] ∧
      e.2.getLast? ≠ some 0) :
    ∀ e ∈ (l.foldl (stateDataStep ds state) acc).partySeats,
      e.2.length ≤ (l.foldl (stateDataStep ds state) acc).years.length ∧ e.2 ≠ [] ∧
      e.2.getLast? ≠ some 0 := by
  induction l generalizing acc with
  | nil => exact h2
  | cons y t ih =>
    rw [List.foldl_cons]
    obtain ⟨hyears, h2n⟩ := stateDataStep_inv ds state acc y
      (hdisj y (List.mem_cons_self y t)) h2
    refine ih _ (List.nodup_cons.mp hl).2 ?_ h2n
    intro z hz
    rcases hyears with he | he
    · rw [he]
      exact hdisj z (List.mem_cons_of_mem y hz)
    · rw [he]
      intro hmem
      rcases List.mem_append.mp hmem with hmem | hmem
      · exact hdisj z (List.mem_cons_of_mem y hz) hmem
      · have : z = y := by simpa using hmem
        exact (List.nodup_cons.mp hl).1 (this ▸ hz)

/-- C8 (amended): in `state_data(s)`, a party's seat series is backfilled
with zeros from the state's first year up to the party's last seat-winning
year — its length is at most the state's years-list length, it is
non-empty, and its last entry is a positive seat count — but positions
after the party's last seat-winning year are absent rather than zero-filled,
so a party series can be shorter than the state's years list. -/
theorem stateData_series_alignment (ds : Dataset) (state : String)
    (hnd : (yearsOf ds).Nodup) :
    ∀ e ∈ (getStateData ds state).partySeats,
      e.2.length ≤ (getStateData ds state).years.length ∧ e.2 ≠ [] ∧
      e.2.getLast? ≠ some 0 := by
  unfold getStateData
  exact stateData_foldl_inv ds state (yearsOf ds)
    { state := state, years := [], partySeats := [], turnout := [] } hnd
    (fun z _ h => absurd h (List.not_mem_nil z))
    (fun e he => absurd he (List.not_mem_nil e))

/-- C8 counterexample input: in state `S`, party `P` wins the only seat in
1962 and party `Q` the only seat in 1967. -/
def c8Ds : Dataset :=
  [("1962", { rows := [ { state := some "S", party := some "P" } ] }),
   ("1967", { rows := [ { state := some "S", party := some "Q" } ] })]

/-- C8 counterexample: the state's years list is `[1962, 1967]` and party
`Q` (appearing only later) is correctly zero-backfilled to `[0, 1]`, but
party `P`'s series is `[1]`, of length 1: the position for 1967, after
`P`'s last seat, is not zero-filled, so not every party series has the
state's years-list length. -/
theorem stateData_counterexample :
    (getStateData c8Ds "S").years = ["1962", "1967"] ∧
    alistGet (getStateData c8Ds "S").partySeats "P" = some [1] ∧
    alistGet (getStateData c8Ds "S").partySeats "Q" = some [0, 1] ∧
    ¬ ((alistGet (getStateData c8Ds "S").partySeats "P").getD []).length =
        (getStateData c8Ds "S").years.length := by decide

theorem stateData_series_alignment_witness :
    (("Q", [0, 1]) : String × List ℕ).2.length ≤ (getStateData c8Ds "S").years.length ∧
    (("Q", [0, 1]) : String × List ℕ).2 ≠ [] ∧
    (("Q", [0, 1]) : String × List ℕ).2.getLast? ≠ some 0 :=
  stateData_series_alignment c8Ds "S" (by decide) ("Q", [0, 1]) (by decide)

end ElectionExplorer
